import Mathlib

/-!
Shallow embedding of `src/usbkbd_cmdmode.c` (a USB keyboard "command mode"
driver layer) and verification of its specified properties.

The embedded core consists of:
* the per-device state `struct usbkbd_cmd` (its pure fields: `command_mode`,
  `ctrl_pressed`, `space_pressed`, `key_state[]`),
* `send_key` / `send_ctrl_alt_t` (modelled as emitted event lists),
* `process_key` (the command-mode state machine),
* the report decode + key diffing of `usbkbd_cmd_irq`, and
* a session runner folding `usbkbd_cmd_irq` over a report sequence.

Machine integers: keycodes are `Nat`; the C `unsigned char` report bytes are
naturally below 256 and every relevant comparison is against small constants,
so no modular wrap-around is involved. Emitted events are `(keycode, pressed)`
pairs in the exact order of the `input_report_key` calls in the source.
-/

namespace UsbkbdCmdmode

/-- `KEY_MAX` from the Linux input event interface (0x2ff). -/
def KEY_MAX : Nat := 767

/-- Keycode of the left Ctrl key. -/
def KEY_LEFTCTRL : Nat := 29

/-- Keycode of the right Ctrl key. -/
def KEY_RIGHTCTRL : Nat := 97

/-- Keycode of the Space key. -/
def KEY_SPACE : Nat := 57

/-- Keycode of the B key (open-terminal binding). -/
def KEY_B : Nat := 48

/-- Keycode of the Q key (exit-command-mode binding). -/
def KEY_Q : Nat := 16

/-- Keycode of the left Alt key. -/
def KEY_LEFTALT : Nat := 56

/-- Keycode of the T key (terminal shortcut key of the synthetic macro). -/
def KEY_T : Nat := 20

/-- An event sent to the virtual input device: `(keycode, pressed)`,
one per `send_key` call in the source. -/
abbrev Event := Nat × Bool

/-- The pure fields of `struct usbkbd_cmd`: mode flag, the two chord latches
and the per-key pressed table `bool key_state[KEY_MAX]`. -/
structure UsbkbdCmd where
  command_mode : Bool
  ctrl_pressed : Bool
  space_pressed : Bool
  key_state : Nat → Bool

/-- State at device attach: `kzalloc` zeroes every field, and the probe
function sets `command_mode = false` explicitly. -/
def usbkbd_init : UsbkbdCmd :=
  { command_mode := false, ctrl_pressed := false, space_pressed := false,
    key_state := fun _ => false }

/-- `send_ctrl_alt_t`: the fixed synthetic macro, as the ordered list of
events its six `send_key` calls emit. -/
def send_ctrl_alt_t : List Event :=
  [(KEY_LEFTCTRL, true), (KEY_LEFTALT, true), (KEY_T, true),
   (KEY_T, false), (KEY_LEFTALT, false), (KEY_LEFTCTRL, false)]

/-- `kbd->key_state[keycode] = pressed` (line 54 of the source). -/
def set_key (s : UsbkbdCmd) (keycode : Nat) (pressed : Bool) : UsbkbdCmd :=
  { s with key_state := fun j => if j = keycode then pressed else s.key_state j }

/-- Lines 56-57: `if (keycode == KEY_LEFTCTRL || keycode == KEY_RIGHTCTRL)
kbd->ctrl_pressed = pressed`. -/
def latch_ctrl (s : UsbkbdCmd) (keycode : Nat) (pressed : Bool) : UsbkbdCmd :=
  if keycode = KEY_LEFTCTRL ∨ keycode = KEY_RIGHTCTRL then
    { s with ctrl_pressed := pressed }
  else s

/-- Lines 59-60: `if (keycode == KEY_SPACE) kbd->space_pressed = pressed`. -/
def latch_space (s : UsbkbdCmd) (keycode : Nat) (pressed : Bool) : UsbkbdCmd :=
  if keycode = KEY_SPACE then { s with space_pressed := pressed } else s

/-- The state of `process_key` after the unconditional updates of lines 54-60
(key table write and latch updates), before the chord check. -/
def latched (s : UsbkbdCmd) (keycode : Nat) (pressed : Bool) : UsbkbdCmd :=
  latch_space (latch_ctrl (set_key s keycode pressed) keycode pressed) keycode pressed

/-- Lines 62-97 of `process_key`: chord check, normal pass-through, and the
command-mode dispatch `switch`, given the already-latched state. -/
def dispatch (s : UsbkbdCmd) (keycode : Nat) (pressed : Bool) : UsbkbdCmd × List Event :=
  if s.ctrl_pressed && s.space_pressed && pressed then
    ({ s with command_mode := !s.command_mode }, [])
  else if !s.command_mode then
    (s, [(keycode, pressed)])
  else if !pressed then
    (s, [])
  else if keycode = KEY_B then
    (s, send_ctrl_alt_t ++ [(KEY_B, false)])
  else if keycode = KEY_Q then
    ({ s with command_mode := false }, [(KEY_Q, false)])
  else
    (s, [(keycode, false)])

/-- `process_key` (lines 49-98): range gate, state updates, chord detection
and mode-dependent dispatch. Returns the new state and the emitted events. -/
def process_key (s : UsbkbdCmd) (keycode : Nat) (pressed : Bool) : UsbkbdCmd × List Event :=
  if KEY_MAX ≤ keycode then (s, [])
  else dispatch (latched s keycode pressed) keycode pressed

/-- Process a list of transitions in order (the successive `process_key`
calls of `usbkbd_cmd_irq`), concatenating the emitted events. -/
def process_keys : UsbkbdCmd → List (Nat × Bool) → UsbkbdCmd × List Event
  | s, [] => (s, [])
  | s, (k, p) :: ts =>
      ((process_keys (process_key s k p).1 ts).1,
       (process_key s k p).2 ++ (process_keys (process_key s k p).1 ts).2)

/-- First loop of `usbkbd_cmd_irq` (lines 117-136): for each entry of
`old_keys`, skip zero, and produce a release when it is absent from `keys`. -/
def release_pass (old_keys keys : List Nat) : List (Nat × Bool) :=
  match old_keys with
  | [] => []
  | k :: rest =>
      if k = 0 then release_pass rest keys
      else if k ∈ keys then release_pass rest keys
      else (k, false) :: release_pass rest keys

/-- Second loop of `usbkbd_cmd_irq` (lines 138-157): for each entry of
`keys`, skip zero, and produce a press when it is absent from `old_keys`. -/
def press_pass (old_keys keys : List Nat) : List (Nat × Bool) :=
  match keys with
  | [] => []
  | k :: rest =>
      if k = 0 then press_pass old_keys rest
      else if k ∈ old_keys then press_pass old_keys rest
      else (k, true) :: press_pass old_keys rest

/-- The ordered transition stream of one `usbkbd_cmd_irq` invocation:
all releases of the first loop, then all presses of the second. -/
def diff_transitions (old_keys keys : List Nat) : List (Nat × Bool) :=
  release_pass old_keys keys ++ press_pass old_keys keys

/-- `usbkbd_cmd_irq` (lines 100-162): on a failed transfer do nothing;
otherwise read the six keycodes at offsets 2-7 of the DMA buffer, run the
two diff loops through `process_key`, and store `keys` as the new
`old_keys`. No length check is performed on the buffer -- the source
`memcpy`s `data[2..7]` unconditionally. Returns (new state, new old_keys,
emitted events). -/
def usbkbd_cmd_irq (kbd : UsbkbdCmd) (old_keys : List Nat) (status : Int)
    (data : List Nat) : UsbkbdCmd × List Nat × List Event :=
  if status ≠ 0 then (kbd, old_keys, [])
  else
    (fun keys =>
      ((process_keys kbd (diff_transitions old_keys keys)).1, keys,
       (process_keys kbd (diff_transitions old_keys keys)).2))
    ((data.drop 2).take 6)

/-- A device session: fold `usbkbd_cmd_irq` (all transfers successful) over
a sequence of raw report buffers, starting from a given state and stored
previous-keys buffer, concatenating all emitted events. -/
def run_session : UsbkbdCmd → List Nat → List (List Nat) → UsbkbdCmd × List Nat × List Event
  | kbd, old_keys, [] => (kbd, old_keys, [])
  | kbd, old_keys, d :: rest =>
      ((run_session (usbkbd_cmd_irq kbd old_keys 0 d).1
          (usbkbd_cmd_irq kbd old_keys 0 d).2.1 rest).1,
       (run_session (usbkbd_cmd_irq kbd old_keys 0 d).1
          (usbkbd_cmd_irq kbd old_keys 0 d).2.1 rest).2.1,
       (usbkbd_cmd_irq kbd old_keys 0 d).2.2 ++
        (run_session (usbkbd_cmd_irq kbd old_keys 0 d).1
          (usbkbd_cmd_irq kbd old_keys 0 d).2.1 rest).2.2)

/-- Value of the `ctrl_pressed` latch after `process_key`'s update for the
current transition (lines 56-57). -/
def ctrl_after (s : UsbkbdCmd) (keycode : Nat) (pressed : Bool) : Bool :=
  if keycode = KEY_LEFTCTRL ∨ keycode = KEY_RIGHTCTRL then pressed else s.ctrl_pressed

/-- Value of the `space_pressed` latch after `process_key`'s update for the
current transition (lines 59-60). -/
def space_after (s : UsbkbdCmd) (keycode : Nat) (pressed : Bool) : Bool :=
  if keycode = KEY_SPACE then pressed else s.space_pressed

/-- The mode stays Normal before and after every transition of the list. -/
def stays_normal : UsbkbdCmd → List (Nat × Bool) → Bool
  | s, [] => !s.command_mode
  | s, (k, p) :: ts => !s.command_mode && stays_normal (process_key s k p).1 ts

/-- Keycode `k` is left net-stuck by an event stream: the last event the
Output Injector receives for `k` is a press. -/
def net_stuck (k : Nat) (evs : List Event) : Prop :=
  (evs.filter (fun e => decide (e.1 = k))).getLast? = some (k, true)

instance net_stuck_dec (k : Nat) (evs : List Event) : Decidable (net_stuck k evs) := by
  unfold net_stuck
  infer_instance

/-! ### Projection lemmas for the state updates of `process_key` -/

theorem set_key_command_mode (s : UsbkbdCmd) (k : Nat) (p : Bool) :
    (set_key s k p).command_mode = s.command_mode := rfl

theorem set_key_ctrl_pressed (s : UsbkbdCmd) (k : Nat) (p : Bool) :
    (set_key s k p).ctrl_pressed = s.ctrl_pressed := rfl

theorem set_key_space_pressed (s : UsbkbdCmd) (k : Nat) (p : Bool) :
    (set_key s k p).space_pressed = s.space_pressed := rfl

theorem set_key_key_state (s : UsbkbdCmd) (k : Nat) (p : Bool) (j : Nat) :
    (set_key s k p).key_state j = if j = k then p else s.key_state j := rfl

theorem latch_ctrl_command_mode (s : UsbkbdCmd) (k : Nat) (p : Bool) :
    (latch_ctrl s k p).command_mode = s.command_mode := by
  unfold latch_ctrl
  split <;> rfl

theorem latch_ctrl_space_pressed (s : UsbkbdCmd) (k : Nat) (p : Bool) :
    (latch_ctrl s k p).space_pressed = s.space_pressed := by
  unfold latch_ctrl
  split <;> rfl

theorem latch_ctrl_key_state (s : UsbkbdCmd) (k : Nat) (p : Bool) (j : Nat) :
    (latch_ctrl s k p).key_state j = s.key_state j := by
  unfold latch_ctrl
  split <;> rfl

theorem latch_ctrl_ctrl_pressed (s : UsbkbdCmd) (k : Nat) (p : Bool) :
    (latch_ctrl s k p).ctrl_pressed =
      if k = KEY_LEFTCTRL ∨ k = KEY_RIGHTCTRL then p else s.ctrl_pressed := by
  unfold latch_ctrl
  split <;> rfl

theorem latch_space_command_mode (s : UsbkbdCmd) (k : Nat) (p : Bool) :
    (latch_space s k p).command_mode = s.command_mode := by
  unfold latch_space
  split <;> rfl

theorem latch_space_ctrl_pressed (s : UsbkbdCmd) (k : Nat) (p : Bool) :
    (latch_space s k p).ctrl_pressed = s.ctrl_pressed := by
  unfold latch_space
  split <;> rfl

theorem latch_space_key_state (s : UsbkbdCmd) (k : Nat) (p : Bool) (j : Nat) :
    (latch_space s k p).key_state j = s.key_state j := by
  unfold latch_space
  split <;> rfl

theorem latch_space_space_pressed (s : UsbkbdCmd) (k : Nat) (p : Bool) :
    (latch_space s k p).space_pressed =
      if k = KEY_SPACE then p else s.space_pressed := by
  unfold latch_space
  split <;> rfl

theorem latched_command_mode (s : UsbkbdCmd) (k : Nat) (p : Bool) :
    (latched s k p).command_mode = s.command_mode := by
  unfold latched
  rw [latch_space_command_mode, latch_ctrl_command_mode, set_key_command_mode]

theorem latched_ctrl_pressed (s : UsbkbdCmd) (k : Nat) (p : Bool) :
    (latched s k p).ctrl_pressed = ctrl_after s k p := by
  unfold latched ctrl_after
  rw [latch_space_ctrl_pressed, latch_ctrl_ctrl_pressed, set_key_ctrl_pressed]

theorem latched_space_pressed (s : UsbkbdCmd) (k : Nat) (p : Bool) :
    (latched s k p).space_pressed = space_after s k p := by
  unfold latched space_after
  rw [latch_space_space_pressed, latch_ctrl_space_pressed, set_key_space_pressed]

theorem latched_key_state (s : UsbkbdCmd) (k : Nat) (p : Bool) (j : Nat) :
    (latched s k p).key_state j = if j = k then p else s.key_state j := by
  unfold latched
  rw [latch_space_key_state, latch_ctrl_key_state, set_key_key_state]

/-! ### Branch lemmas for `process_key` and `dispatch` -/

theorem process_key_out_of_range (s : UsbkbdCmd) (k : Nat) (p : Bool)
    (hk : KEY_MAX ≤ k) : process_key s k p = (s, []) := by
  unfold process_key
  rw [if_pos hk]

theorem process_key_in_range (s : UsbkbdCmd) (k : Nat) (p : Bool)
    (hk : k < KEY_MAX) : process_key s k p = dispatch (latched s k p) k p := by
  unfold process_key
  rw [if_neg (not_le.mpr hk)]

theorem dispatch_chord (s : UsbkbdCmd) (k : Nat) (p : Bool)
    (hc : (s.ctrl_pressed && s.space_pressed && p) = true) :
    dispatch s k p = ({ s with command_mode := !s.command_mode }, []) := by
  unfold dispatch
  rw [if_pos hc]

theorem dispatch_normal (s : UsbkbdCmd) (k : Nat) (p : Bool)
    (hc : (s.ctrl_pressed && s.space_pressed && p) = false)
    (hm : s.command_mode = false) :
    dispatch s k p = (s, [(k, p)]) := by
  unfold dispatch
  rw [if_neg (by simp [hc]), if_pos (by simp [hm])]

theorem dispatch_cmd_release (s : UsbkbdCmd) (k : Nat)
    (hm : s.command_mode = true) :
    dispatch s k false = (s, []) := by
  unfold dispatch
  rw [if_neg (by simp), if_neg (by simp [hm]), if_pos (by simp)]

theorem dispatch_cmd_b (s : UsbkbdCmd)
    (hm : s.command_mode = true)
    (hc : (s.ctrl_pressed && s.space_pressed) = false) :
    dispatch s KEY_B true = (s, send_ctrl_alt_t ++ [(KEY_B, false)]) := by
  unfold dispatch
  rw [if_neg (by simp [hc]), if_neg (by simp [hm]), if_neg (by simp), if_pos rfl]

theorem dispatch_cmd_q (s : UsbkbdCmd)
    (hm : s.command_mode = true)
    (hc : (s.ctrl_pressed && s.space_pressed) = false) :
    dispatch s KEY_Q true = ({ s with command_mode := false }, [(KEY_Q, false)]) := by
  unfold dispatch
  rw [if_neg (by simp [hc]), if_neg (by simp [hm]), if_neg (by simp),
    if_neg (by unfold KEY_Q KEY_B; omega), if_pos rfl]

theorem dispatch_cmd_other (s : UsbkbdCmd) (k : Nat)
    (hm : s.command_mode = true)
    (hc : (s.ctrl_pressed && s.space_pressed) = false)
    (hb : k ≠ KEY_B) (hq : k ≠ KEY_Q) :
    dispatch s k true = (s, [(k, false)]) := by
  unfold dispatch
  rw [if_neg (by simp [hc]), if_neg (by simp [hm]), if_neg (by simp),
    if_neg hb, if_neg hq]

/-! ### Lemmas about the diff loops -/

theorem release_pass_pressed_false (old_keys keys : List Nat) :
    ∀ e ∈ release_pass old_keys keys, e.2 = false := by
  induction old_keys with
  | nil => intro e he; simp [release_pass] at he
  | cons k rest ih =>
      intro e he
      unfold release_pass at he
      by_cases h0 : k = 0
      · rw [if_pos h0] at he; exact ih e he
      · rw [if_neg h0] at he
        by_cases hm : k ∈ keys
        · rw [if_pos hm] at he; exact ih e he
        · rw [if_neg hm] at he
          rcases List.mem_cons.mp he with h | h
          · rw [h]
          · exact ih e h

theorem press_pass_pressed_true (old_keys keys : List Nat) :
    ∀ e ∈ press_pass old_keys keys, e.2 = true := by
  induction keys with
  | nil => intro e he; simp [press_pass] at he
  | cons k rest ih =>
      intro e he
      unfold press_pass at he
      by_cases h0 : k = 0
      · rw [if_pos h0] at he; exact ih e he
      · rw [if_neg h0] at he
        by_cases hm : k ∈ old_keys
        · rw [if_pos hm] at he; exact ih e he
        · rw [if_neg hm] at he
          rcases List.mem_cons.mp he with h | h
          · rw [h]
          · exact ih e h

theorem mem_release_pass (old_keys keys : List Nat) (k : Nat) (hk : k ≠ 0) :
    (k, false) ∈ release_pass old_keys keys ↔ k ∈ old_keys ∧ ¬ k ∈ keys := by
  induction old_keys with
  | nil => simp [release_pass]
  | cons a rest ih =>
      unfold release_pass
      by_cases h0 : a = 0
      · rw [if_pos h0, ih]
        subst h0
        simp only [List.mem_cons]
        constructor
        · exact fun h => ⟨Or.inr h.1, h.2⟩
        · rintro ⟨h | h, h2⟩
          · exact absurd h hk
          · exact ⟨h, h2⟩
      · rw [if_neg h0]
        by_cases hm : a ∈ keys
        · rw [if_pos hm, ih]
          simp only [List.mem_cons]
          constructor
          · exact fun h => ⟨Or.inr h.1, h.2⟩
          · rintro ⟨h | h, h2⟩
            · exact absurd (h ▸ hm) h2
            · exact ⟨h, h2⟩
        · rw [if_neg hm]
          simp only [List.mem_cons, Prod.mk.injEq, and_true, ih]
          constructor
          · rintro (h | h)
            · exact ⟨Or.inl h, h ▸ hm⟩
            · exact ⟨Or.inr h.1, h.2⟩
          · rintro ⟨h | h, h2⟩
            · exact Or.inl h
            · exact Or.inr ⟨h, h2⟩

theorem mem_press_pass (old_keys keys : List Nat) (k : Nat) (hk : k ≠ 0) :
    (k, true) ∈ press_pass old_keys keys ↔ k ∈ keys ∧ ¬ k ∈ old_keys := by
  induction keys with
  | nil => simp [press_pass]
  | cons a rest ih =>
      unfold press_pass
      by_cases h0 : a = 0
      · rw [if_pos h0, ih]
        subst h0
        simp only [List.mem_cons]
        constructor
        · exact fun h => ⟨Or.inr h.1, h.2⟩
        · rintro ⟨h | h, h2⟩
          · exact absurd h hk
          · exact ⟨h, h2⟩
      · rw [if_neg h0]
        by_cases hm : a ∈ old_keys
        · rw [if_pos hm, ih]
          simp only [List.mem_cons]
          constructor
          · exact fun h => ⟨Or.inr h.1, h.2⟩
          · rintro ⟨h | h, h2⟩
            · exact absurd (h ▸ hm) h2
            · exact ⟨h, h2⟩
        · rw [if_neg hm]
          simp only [List.mem_cons, Prod.mk.injEq, and_true, ih]
          constructor
          · rintro (h | h)
            · exact ⟨Or.inl h, h ▸ hm⟩
            · exact ⟨Or.inr h.1, h.2⟩
          · rintro ⟨h | h, h2⟩
            · exact Or.inl h
            · exact Or.inr ⟨h, h2⟩

theorem release_pass_self (keys : List Nat) :
    ∀ l : List Nat, (∀ k ∈ l, k ∈ keys) → release_pass l keys = [] := by
  intro l
  induction l with
  | nil => intro _; rfl
  | cons a rest ih =>
      intro h
      unfold release_pass
      by_cases h0 : a = 0
      · rw [if_pos h0]; exact ih fun k hk => h k (List.mem_cons_of_mem a hk)
      · rw [if_neg h0, if_pos (h a (List.mem_cons_self a rest))]
        exact ih fun k hk => h k (List.mem_cons_of_mem a hk)

theorem press_pass_self (old_keys : List Nat) :
    ∀ l : List Nat, (∀ k ∈ l, k ∈ old_keys) → press_pass old_keys l = [] := by
  intro l
  induction l with
  | nil => intro _; rfl
  | cons a rest ih =>
      intro h
      unfold press_pass
      by_cases h0 : a = 0
      · rw [if_pos h0]; exact ih fun k hk => h k (List.mem_cons_of_mem a hk)
      · rw [if_neg h0, if_pos (h a (List.mem_cons_self a rest))]
        exact ih fun k hk => h k (List.mem_cons_of_mem a hk)

theorem diff_transitions_self (keys : List Nat) : diff_transitions keys keys = [] := by
  unfold diff_transitions
  rw [release_pass_self keys keys fun _ h => h,
    press_pass_self keys keys fun _ h => h]
  rfl

/-! ### Lemmas about transition processing -/

theorem process_key_normal_step (s : UsbkbdCmd) (k : Nat) (p : Bool)
    (hk : k < KEY_MAX) (hm : s.command_mode = false)
    (hm' : (process_key s k p).1.command_mode = false) :
    (process_key s k p).2 = [(k, p)] := by
  rw [process_key_in_range s k p hk] at hm' ⊢
  by_cases hc : ((latched s k p).ctrl_pressed && (latched s k p).space_pressed && p) = true
  · rw [dispatch_chord _ _ _ hc] at hm'
    simp only [latched_command_mode] at hm'
    rw [hm] at hm'
    simp at hm'
  · rw [dispatch_normal _ _ _ (Bool.eq_false_iff.mpr hc)
      (by rw [latched_command_mode]; exact hm)]

theorem stays_normal_mode (s : UsbkbdCmd) (ts : List (Nat × Bool))
    (h : stays_normal s ts = true) : s.command_mode = false := by
  cases ts with
  | nil =>
      unfold stays_normal at h
      simpa using h
  | cons t rest =>
      cases t with
      | mk k p =>
          unfold stays_normal at h
          rw [Bool.and_eq_true] at h
          simpa using h.1

theorem process_keys_normal (ts : List (Nat × Bool)) : ∀ s : UsbkbdCmd,
    (∀ t ∈ ts, t.1 < KEY_MAX) → stays_normal s ts = true →
    (process_keys s ts).2 = ts := by
  induction ts with
  | nil => intro s _ _; rfl
  | cons t rest ih =>
      cases t with
      | mk k p =>
          intro s hr hn
          unfold stays_normal at hn
          rw [Bool.and_eq_true] at hn
          have hn2 := hn.2
          have hm : s.command_mode = false := by
            simpa using hn.1
          have hk : k < KEY_MAX := hr (k, p) (List.mem_cons_self _ _)
          have hm' : (process_key s k p).1.command_mode = false :=
            stays_normal_mode _ _ hn2
          have hout := process_key_normal_step s k p hk hm hm'
          simp only [process_keys, hout]
          rw [ih (process_key s k p).1
            (fun t ht => hr t (List.mem_cons_of_mem _ ht)) hn2]
          rfl

theorem process_keys_filter (ts : List (Nat × Bool)) : ∀ s : UsbkbdCmd,
    process_keys s ts = process_keys s (ts.filter fun t => decide (t.1 < KEY_MAX)) := by
  induction ts with
  | nil => intro s; rfl
  | cons t rest ih =>
      cases t with
      | mk k p =>
          intro s
          by_cases hk : k < KEY_MAX
          · rw [List.filter_cons_of_pos (by simpa using hk)]
            simp only [process_keys]
            rw [← ih (process_key s k p).1]
          · rw [List.filter_cons_of_neg (by simpa using hk)]
            simp only [process_keys]
            rw [process_key_out_of_range s k p (le_of_not_lt hk)]
            simp only [List.nil_append]
            rw [← ih s]

theorem release_pass_keycode_ne_zero (old_keys keys : List Nat) :
    ∀ e ∈ release_pass old_keys keys, e.1 ≠ 0 := by
  induction old_keys with
  | nil => intro e he; simp [release_pass] at he
  | cons k rest ih =>
      intro e he
      unfold release_pass at he
      by_cases h0 : k = 0
      · rw [if_pos h0] at he; exact ih e he
      · rw [if_neg h0] at he
        by_cases hm : k ∈ keys
        · rw [if_pos hm] at he; exact ih e he
        · rw [if_neg hm] at he
          rcases List.mem_cons.mp he with h | h
          · rw [h]; exact h0
          · exact ih e h

theorem press_pass_keycode_ne_zero (old_keys keys : List Nat) :
    ∀ e ∈ press_pass old_keys keys, e.1 ≠ 0 := by
  induction keys with
  | nil => intro e he; simp [press_pass] at he
  | cons k rest ih =>
      intro e he
      unfold press_pass at he
      by_cases h0 : k = 0
      · rw [if_pos h0] at he; exact ih e he
      · rw [if_neg h0] at he
        by_cases hm : k ∈ old_keys
        · rw [if_pos hm] at he; exact ih e he
        · rw [if_neg hm] at he
          rcases List.mem_cons.mp he with h | h
          · rw [h]; exact h0
          · exact ih e h

/-- A non-chord transition processed in Normal mode is forwarded unchanged
and leaves the mode Normal. -/
theorem process_key_normal_forward (s : UsbkbdCmd) (k : Nat) (p : Bool)
    (hm : s.command_mode = false) (hk : k < KEY_MAX)
    (hc : (ctrl_after s k p && space_after s k p && p) = false) :
    (process_key s k p).2 = [(k, p)] ∧ (process_key s k p).1.command_mode = false := by
  rw [process_key_in_range s k p hk]
  have hc0 : ((latched s k p).ctrl_pressed && (latched s k p).space_pressed && p) = false := by
    rw [latched_ctrl_pressed, latched_space_pressed]; exact hc
  rw [dispatch_normal _ _ _ hc0 (by rw [latched_command_mode]; exact hm)]
  exact ⟨rfl, by rw [latched_command_mode]; exact hm⟩

/-! ### The claims -/

/-- Claim C2: for every pair of KeySets `previous` and `current`, the differ
emits a release for each non-zero keycode in `previous` missing from
`current`, a press for each non-zero keycode in `current` missing from
`previous`, never emits keycode 0, and all releases precede all presses. -/
theorem c2_differ_correct (prev cur : List Nat) :
    (∀ k, k ≠ 0 → ((k, false) ∈ diff_transitions prev cur ↔ k ∈ prev ∧ ¬ k ∈ cur)) ∧
    (∀ k, k ≠ 0 → ((k, true) ∈ diff_transitions prev cur ↔ k ∈ cur ∧ ¬ k ∈ prev)) ∧
    (∀ p, ¬ (0, p) ∈ diff_transitions prev cur) ∧
    (∃ rs ps, diff_transitions prev cur = rs ++ ps ∧
      (∀ e ∈ rs, e.2 = false) ∧ (∀ e ∈ ps, e.2 = true)) := by
  refine ⟨?_, ?_, ?_,
    release_pass prev cur, press_pass prev cur, rfl,
    release_pass_pressed_false prev cur, press_pass_pressed_true prev cur⟩
  · intro k hk
    unfold diff_transitions
    rw [List.mem_append]
    constructor
    · rintro (h | h)
      · exact (mem_release_pass prev cur k hk).mp h
      · exact absurd (press_pass_pressed_true prev cur _ h) (by simp)
    · intro h
      exact Or.inl ((mem_release_pass prev cur k hk).mpr h)
  · intro k hk
    unfold diff_transitions
    rw [List.mem_append]
    constructor
    · rintro (h | h)
      · exact absurd (release_pass_pressed_false prev cur _ h) (by simp)
      · exact (mem_press_pass prev cur k hk).mp h
    · intro h
      exact Or.inr ((mem_press_pass prev cur k hk).mpr h)
  · intro p
    unfold diff_transitions
    rw [List.mem_append]
    rintro (h | h)
    · exact release_pass_keycode_ne_zero prev cur _ h rfl
    · exact press_pass_keycode_ne_zero prev cur _ h rfl

/-- Witness for C2 on concrete KeySets. -/
theorem c2_differ_correct_witness :
    (30, false) ∈ diff_transitions [30, 0, 0, 0, 0, 0] [31, 0, 0, 0, 0, 0] :=
  ((c2_differ_correct [30, 0, 0, 0, 0, 0] [31, 0, 0, 0, 0, 0]).1 30
    (by decide)).mpr (by decide)

/-- Claim C3: for an in-range transition, the state machine toggles the mode
and consumes the transition (emits nothing) exactly when, after this
transition's latch updates, both latches are true and it is a press. -/
theorem c3_chord_toggle (s : UsbkbdCmd) (k : Nat) (p : Bool) (hk : k < KEY_MAX) :
    ((process_key s k p).1.command_mode = !s.command_mode ∧ (process_key s k p).2 = []) ↔
      (ctrl_after s k p && space_after s k p && p) = true := by
  rw [process_key_in_range s k p hk, ← latched_ctrl_pressed s k p,
    ← latched_space_pressed s k p]
  by_cases hc : ((latched s k p).ctrl_pressed && (latched s k p).space_pressed && p) = true
  · rw [dispatch_chord _ _ _ hc]
    simp [latched_command_mode, hc]
  · have hc0 : ((latched s k p).ctrl_pressed && (latched s k p).space_pressed && p) = false :=
      Bool.eq_false_iff.mpr hc
    rw [hc0]
    by_cases hm : (latched s k p).command_mode = true
    · have hsm : s.command_mode = true := by rw [← latched_command_mode s k p]; exact hm
      cases p with
      | false =>
          rw [dispatch_cmd_release _ _ hm]
          simp [latched_command_mode, hsm]
      | true =>
          have hc1 : ((latched s k true).ctrl_pressed && (latched s k true).space_pressed) = false := by
            simpa using hc0
          by_cases hb : k = KEY_B
          · subst hb
            rw [dispatch_cmd_b _ hm hc1]
            simp [send_ctrl_alt_t]
          · by_cases hq : k = KEY_Q
            · subst hq
              rw [dispatch_cmd_q _ hm hc1]
              simp
            · rw [dispatch_cmd_other _ _ hm hc1 hb hq]
              simp
    · have hm0 : (latched s k p).command_mode = false := Bool.eq_false_iff.mpr hm
      rw [dispatch_normal _ _ _ hc0 hm0]
      simp [latched_command_mode]

/-- Witness for C3: pressing Space with Ctrl already latched toggles the
mode and emits nothing. -/
theorem c3_chord_toggle_witness :
    ((process_key (process_key usbkbd_init KEY_LEFTCTRL true).1 KEY_SPACE true).1.command_mode
        = !(process_key usbkbd_init KEY_LEFTCTRL true).1.command_mode
      ∧ (process_key (process_key usbkbd_init KEY_LEFTCTRL true).1 KEY_SPACE true).2 = [])
    ↔ (ctrl_after (process_key usbkbd_init KEY_LEFTCTRL true).1 KEY_SPACE true
        && space_after (process_key usbkbd_init KEY_LEFTCTRL true).1 KEY_SPACE true
        && true) = true :=
  c3_chord_toggle (process_key usbkbd_init KEY_LEFTCTRL true).1 KEY_SPACE true (by decide)

/-- Claim C7: from the initial state, pressing then releasing a valid
keycode `A` emits exactly `[(A, true), (A, false)]` with no mode change, and
in Normal mode every in-range non-chord transition is forwarded unchanged. -/
theorem c7_normal_passthrough :
    (∀ A : Nat, 0 < A → A < KEY_MAX →
      (process_keys usbkbd_init [(A, true), (A, false)]).2 = [(A, true), (A, false)] ∧
      (process_keys usbkbd_init [(A, true), (A, false)]).1.command_mode = false) ∧
    (∀ (s : UsbkbdCmd) (k : Nat) (p : Bool), s.command_mode = false → k < KEY_MAX →
      (ctrl_after s k p && space_after s k p && p) = false →
      (process_key s k p).2 = [(k, p)] ∧ (process_key s k p).1.command_mode = false) := by
  refine ⟨?_, process_key_normal_forward⟩
  intro A _ hA
  have hchord1 : (ctrl_after usbkbd_init A true && space_after usbkbd_init A true && true) = false := by
    by_cases h57 : A = KEY_SPACE
    · subst h57
      decide
    · unfold space_after
      rw [if_neg h57]
      simp [usbkbd_init]
  have h1 := process_key_normal_forward usbkbd_init A true rfl hA hchord1
  have hchord2 : (ctrl_after (process_key usbkbd_init A true).1 A false
      && space_after (process_key usbkbd_init A true).1 A false && false) = false := by
    simp
  have h2 := process_key_normal_forward (process_key usbkbd_init A true).1 A false
    h1.2 hA hchord2
  constructor
  · simp only [process_keys]
    rw [h1.1, h2.1]
    simp
  · simp only [process_keys]
    exact h2.2

/-- Witness for C7 at keycode 30. -/
theorem c7_normal_passthrough_witness :
    (process_keys usbkbd_init [(30, true), (30, false)]).2 = [(30, true), (30, false)] ∧
    (process_keys usbkbd_init [(30, true), (30, false)]).1.command_mode = false :=
  c7_normal_passthrough.1 30 (by decide) (by decide)

/-- Claim C9: an out-of-range transition is dropped with no event and no
state change, and processing a batch equals processing the batch with the
out-of-range transitions removed. -/
theorem c9_out_of_range_dropped :
    (∀ (s : UsbkbdCmd) (k : Nat) (p : Bool), KEY_MAX ≤ k → process_key s k p = (s, [])) ∧
    (∀ (s : UsbkbdCmd) (ts : List (Nat × Bool)),
      process_keys s ts = process_keys s (ts.filter fun t => decide (t.1 < KEY_MAX))) :=
  ⟨process_key_out_of_range, fun s ts => process_keys_filter ts s⟩

/-- Witness for C9: keycode 800 is dropped alone, the rest of its batch is
still processed. -/
theorem c9_out_of_range_dropped_witness :
    process_key usbkbd_init 800 true = (usbkbd_init, []) ∧
    process_keys usbkbd_init [(800, true), (30, true)] =
      process_keys usbkbd_init [(30, true)] := by
  refine ⟨c9_out_of_range_dropped.1 usbkbd_init 800 true (by decide), ?_⟩
  rw [c9_out_of_range_dropped.2 usbkbd_init [(800, true), (30, true)]]
  rfl

theorem dispatch_fst_key_state (s : UsbkbdCmd) (k : Nat) (p : Bool) :
    (dispatch s k p).1.key_state = s.key_state := by
  unfold dispatch
  split
  · rfl
  · split
    · rfl
    · split
      · rfl
      · split
        · rfl
        · split
          · rfl
          · rfl

theorem process_key_fst_key_state (s : UsbkbdCmd) (k : Nat) (p : Bool)
    (hk : k < KEY_MAX) (j : Nat) :
    (process_key s k p).1.key_state j = if j = k then p else s.key_state j := by
  rw [process_key_in_range s k p hk, dispatch_fst_key_state, latched_key_state]

/-- Processing a press never clears an already-set entry of the key table. -/
theorem press_preserves_key_state_true (s : UsbkbdCmd) (k j : Nat)
    (h : s.key_state j = true) : (process_key s k true).1.key_state j = true := by
  by_cases hk : KEY_MAX ≤ k
  · rw [process_key_out_of_range s k true hk]
    exact h
  · rw [process_key_fst_key_state s k true (lt_of_not_le hk) j]
    by_cases hj : j = k
    · rw [if_pos hj]
    · rw [if_neg hj]
      exact h

/-- A successful transfer: `usbkbd_cmd_irq` with `status = 0` decodes the
six keycodes at offsets 2-7 and processes the diff. -/
theorem usbkbd_cmd_irq_ok (kbd : UsbkbdCmd) (old_keys : List Nat) (data : List Nat) :
    usbkbd_cmd_irq kbd old_keys 0 data =
      ((process_keys kbd (diff_transitions old_keys ((data.drop 2).take 6))).1,
       (data.drop 2).take 6,
       (process_keys kbd (diff_transitions old_keys ((data.drop 2).take 6))).2) := by
  unfold usbkbd_cmd_irq
  rw [if_neg (by decide)]

/-- Claim C1 counterexample: press Ctrl (forwarded pressed), then Space
(chord toggles into Command mode), then release everything. The only event
the session ever forwards is `(Ctrl, true)`: Ctrl's release is swallowed in
Command mode and no compensating release is ever emitted, so the net
visible state is stuck at session end even though the raw stream released
every key. -/
theorem c1_stuck_key_counterexample :
    (run_session usbkbd_init (List.replicate 6 0)
      [[0, 0, 29, 0, 0, 0, 0, 0], [0, 0, 29, 57, 0, 0, 0, 0],
       [0, 0, 0, 0, 0, 0, 0, 0]]).2.2 = [(KEY_LEFTCTRL, true)] ∧
    net_stuck KEY_LEFTCTRL
      (run_session usbkbd_init (List.replicate 6 0)
        [[0, 0, 29, 0, 0, 0, 0, 0], [0, 0, 29, 57, 0, 0, 0, 0],
         [0, 0, 0, 0, 0, 0, 0, 0]]).2.2 := by
  decide

/-- Claim C1 (amended): in a session during which Command mode is never
entered, every in-range transition is forwarded unchanged, so any keycode
the differ's stream leaves net-released is also net-released in the
forwarded output. (The compensation for Command-mode swallowed releases
does not restore this in general, as the counterexample shows.) -/
theorem c1_no_stuck_key_amended (ts : List (Nat × Bool))
    (hr : ∀ t ∈ ts, t.1 < KEY_MAX)
    (hn : stays_normal usbkbd_init ts = true) :
    (process_keys usbkbd_init ts).2 = ts ∧
    ∀ k, ¬ net_stuck k ts → ¬ net_stuck k (process_keys usbkbd_init ts).2 := by
  have h := process_keys_normal ts usbkbd_init hr hn
  exact ⟨h, fun k hk => by rw [h]; exact hk⟩

/-- Witness for the amended C1 on a concrete balanced stream. -/
theorem c1_no_stuck_key_amended_witness :
    (process_keys usbkbd_init [(31, true), (31, false)]).2 = [(31, true), (31, false)] :=
  (c1_no_stuck_key_amended [(31, true), (31, false)] (by decide) (by decide)).1

/-- Claim C4 counterexample: after Ctrl then Space are pressed the mode is
Command and both latches stay held; pressing a third key (30) while they
remain held re-toggles the mode back to Normal and consumes the press,
although that press did not complete the chord. -/
theorem c4_third_key_retoggle_counterexample :
    (process_keys usbkbd_init [(KEY_LEFTCTRL, true), (KEY_SPACE, true)]).1.command_mode = true ∧
    (process_keys usbkbd_init [(KEY_LEFTCTRL, true), (KEY_SPACE, true)]).1.ctrl_pressed = true ∧
    (process_keys usbkbd_init [(KEY_LEFTCTRL, true), (KEY_SPACE, true)]).1.space_pressed = true ∧
    (process_key (process_keys usbkbd_init
      [(KEY_LEFTCTRL, true), (KEY_SPACE, true)]).1 30 true).1.command_mode = false ∧
    (process_key (process_keys usbkbd_init
      [(KEY_LEFTCTRL, true), (KEY_SPACE, true)]).1 30 true).2 = [] := by
  decide

/-- Claim C4 (amended): releases never change the mode and a repeated
identical report yields no transitions, so holding Ctrl and Space without a
new press never re-toggles; but it is not only the chord-completing press
that toggles: every in-range press processed while both updated latches are
true toggles the mode, including a press of a third key. -/
theorem c4_chord_edge_amended :
    (∀ (s : UsbkbdCmd) (k : Nat), (process_key s k false).1.command_mode = s.command_mode) ∧
    (∀ keys : List Nat, diff_transitions keys keys = []) ∧
    (∀ (s : UsbkbdCmd) (k : Nat), k < KEY_MAX →
      (ctrl_after s k true && space_after s k true) = true →
      (process_key s k true).1.command_mode = !s.command_mode) := by
  refine ⟨?_, diff_transitions_self, ?_⟩
  · intro s k
    by_cases hk : KEY_MAX ≤ k
    · rw [process_key_out_of_range s k false hk]
    · rw [process_key_in_range s k false (lt_of_not_le hk)]
      have hc0 : ((latched s k false).ctrl_pressed
          && (latched s k false).space_pressed && false) = false := by simp
      by_cases hm : (latched s k false).command_mode = true
      · rw [dispatch_cmd_release _ _ hm]
        exact latched_command_mode s k false
      · rw [dispatch_normal _ _ _ hc0 (Bool.eq_false_iff.mpr hm)]
        exact latched_command_mode s k false
  · intro s k hk hc
    rw [process_key_in_range s k true hk]
    have hc1 : ((latched s k true).ctrl_pressed
        && (latched s k true).space_pressed && true) = true := by
      rw [latched_ctrl_pressed, latched_space_pressed]
      simpa using hc
    rw [dispatch_chord _ _ _ hc1]
    show (!(latched s k true).command_mode) = !s.command_mode
    rw [latched_command_mode]

/-- Witness for the amended C4: the third-key press at the concrete chord
state toggles the mode. -/
theorem c4_chord_edge_amended_witness :
    (process_key (process_keys usbkbd_init
        [(KEY_LEFTCTRL, true), (KEY_SPACE, true)]).1 30 true).1.command_mode
      = !(process_keys usbkbd_init
        [(KEY_LEFTCTRL, true), (KEY_SPACE, true)]).1.command_mode :=
  c4_chord_edge_amended.2.2
    (process_keys usbkbd_init [(KEY_LEFTCTRL, true), (KEY_SPACE, true)]).1 30
    (by decide) (by decide)

/-- Claim C5 evaluation: `usbkbd_cmd_irq` contains no buffer-length check.
A 7-byte report `[0,0,30,0,0,0,0]` (with whatever garbage byte `g` the DMA
buffer happens to hold at offset 7) is decoded and processed normally: the
press of keycode 30 is forwarded and the key table entry is set, instead of
the report being dropped with a decode error and no state update. -/
theorem c5_no_length_check (g : Nat) :
    (30, true) ∈ (usbkbd_cmd_irq usbkbd_init (List.replicate 6 0) 0
      [0, 0, 30, 0, 0, 0, 0, g]).2.2 ∧
    (usbkbd_cmd_irq usbkbd_init (List.replicate 6 0) 0
      [0, 0, 30, 0, 0, 0, 0, g]).1.key_state 30 = true := by
  rw [usbkbd_cmd_irq_ok]
  have hkeys : ((([0, 0, 30, 0, 0, 0, 0, g] : List Nat).drop 2).take 6)
      = [30, 0, 0, 0, 0, g] := rfl
  rw [hkeys]
  have hdiff : diff_transitions (List.replicate 6 0) [30, 0, 0, 0, 0, g]
      = (30, true) :: press_pass (List.replicate 6 0) [g] := rfl
  rw [hdiff]
  constructor
  · simp only [process_keys]
    have h30 : (process_key usbkbd_init 30 true).2 = [(30, true)] := rfl
    rw [h30]
    exact List.mem_append_left _ (List.mem_cons_self _ _)
  · simp only [process_keys]
    by_cases hg0 : g = 0
    · subst hg0
      decide
    · have hrest : press_pass (List.replicate 6 0) [g] = [(g, true)] := by
        unfold press_pass
        rw [if_neg hg0, if_neg (by simp [List.mem_replicate, hg0])]
        rfl
      rw [hrest]
      simp only [process_keys]
      show (process_key (process_key usbkbd_init 30 true).1 g true).1.key_state 30 = true
      exact press_preserves_key_state_true _ g 30 (by decide)

/-- Witness for C5 at a concrete garbage byte. -/
theorem c5_no_length_check_witness :
    (30, true) ∈ (usbkbd_cmd_irq usbkbd_init (List.replicate 6 0) 0
      [0, 0, 30, 0, 0, 0, 0, 255]).2.2 ∧
    (usbkbd_cmd_irq usbkbd_init (List.replicate 6 0) 0
      [0, 0, 30, 0, 0, 0, 0, 255]).1.key_state 30 = true :=
  c5_no_length_check 255

/-- Claim C6 counterexample: in the Command-mode state reached by pressing
Ctrl then Space, both latches are still held; pressing B then completes the
chord check again, so nothing is emitted (no macro) and the mode returns to
Normal instead of remaining Command. -/
theorem c6_open_terminal_counterexample :
    (process_keys usbkbd_init [(KEY_LEFTCTRL, true), (KEY_SPACE, true)]).1.command_mode = true ∧
    (process_key (process_keys usbkbd_init
      [(KEY_LEFTCTRL, true), (KEY_SPACE, true)]).1 KEY_B true).2 = [] ∧
    (process_key (process_keys usbkbd_init
      [(KEY_LEFTCTRL, true), (KEY_SPACE, true)]).1 KEY_B true).1.command_mode = false := by
  decide

/-- Claim C6 (amended): in Command mode, when the Ctrl and Space latches
are not both held (so the B press does not complete the chord), pressing B
emits exactly `[(Ctrl,true),(Alt,true),(T,true),(T,false),(Alt,false),
(Ctrl,false),(B,false)]` in that order and the mode remains Command. -/
theorem c6_open_terminal_amended (s : UsbkbdCmd)
    (hm : s.command_mode = true)
    (hc : (s.ctrl_pressed && s.space_pressed) = false) :
    (process_key s KEY_B true).2 =
      [(KEY_LEFTCTRL, true), (KEY_LEFTALT, true), (KEY_T, true), (KEY_T, false),
       (KEY_LEFTALT, false), (KEY_LEFTCTRL, false), (KEY_B, false)] ∧
    (process_key s KEY_B true).1.command_mode = true := by
  rw [process_key_in_range s KEY_B true (by decide)]
  have hm' : (latched s KEY_B true).command_mode = true := by
    rw [latched_command_mode]; exact hm
  have hc' : ((latched s KEY_B true).ctrl_pressed
      && (latched s KEY_B true).space_pressed) = false := by
    rw [latched_ctrl_pressed, latched_space_pressed]
    unfold ctrl_after space_after
    rw [if_neg (by decide), if_neg (by decide)]
    exact hc
  rw [dispatch_cmd_b _ hm' hc']
  exact ⟨rfl, hm'⟩

/-- Witness for the amended C6 at a concrete reachable Command state with
the latches released. -/
theorem c6_open_terminal_amended_witness :
    (process_key (process_keys usbkbd_init
      [(KEY_LEFTCTRL, true), (KEY_SPACE, true), (KEY_LEFTCTRL, false),
       (KEY_SPACE, false)]).1 KEY_B true).2 =
      [(KEY_LEFTCTRL, true), (KEY_LEFTALT, true), (KEY_T, true), (KEY_T, false),
       (KEY_LEFTALT, false), (KEY_LEFTCTRL, false), (KEY_B, false)] :=
  (c6_open_terminal_amended
    (process_keys usbkbd_init
      [(KEY_LEFTCTRL, true), (KEY_SPACE, true), (KEY_LEFTCTRL, false),
       (KEY_SPACE, false)]).1 (by decide) (by decide)).1

/-- Claim C8 counterexample: in the Command-mode state reached by pressing
right Ctrl then Space, both latches are held; pressing key 30 (neither B
nor Q) emits nothing (not `[(30, false)]`) and changes the mode. -/
theorem c8_unknown_command_counterexample :
    (process_keys usbkbd_init [(KEY_RIGHTCTRL, true), (KEY_SPACE, true)]).1.command_mode = true ∧
    (process_key (process_keys usbkbd_init
      [(KEY_RIGHTCTRL, true), (KEY_SPACE, true)]).1 30 true).2 = [] ∧
    (process_key (process_keys usbkbd_init
      [(KEY_RIGHTCTRL, true), (KEY_SPACE, true)]).1 30 true).1.command_mode = false := by
  decide

/-- Claim C8 (amended): in Command mode, a press of any in-range key other
than B and Q that does not complete the chord (after the latch update not
both latches are true) emits exactly `[(key, false)]` and leaves the mode
Command. -/
theorem c8_unknown_command_amended (s : UsbkbdCmd) (k : Nat)
    (hm : s.command_mode = true) (hk : k < KEY_MAX)
    (hb : k ≠ KEY_B) (hq : k ≠ KEY_Q)
    (hc : (ctrl_after s k true && space_after s k true) = false) :
    (process_key s k true).2 = [(k, false)] ∧
    (process_key s k true).1.command_mode = true := by
  rw [process_key_in_range s k true hk]
  have hm' : (latched s k true).command_mode = true := by
    rw [latched_command_mode]; exact hm
  have hc' : ((latched s k true).ctrl_pressed
      && (latched s k true).space_pressed) = false := by
    rw [latched_ctrl_pressed, latched_space_pressed]
    exact hc
  rw [dispatch_cmd_other _ _ hm' hc' hb hq]
  exact ⟨rfl, hm'⟩

/-- Witness for the amended C8: key 30 pressed in a Command state with the
latches released yields exactly its own release. -/
theorem c8_unknown_command_amended_witness :
    (process_key (process_keys usbkbd_init
      [(KEY_LEFTCTRL, true), (KEY_SPACE, true), (KEY_LEFTCTRL, false),
       (KEY_SPACE, false)]).1 30 true).2 = [(30, false)] :=
  (c8_unknown_command_amended
    (process_keys usbkbd_init
      [(KEY_LEFTCTRL, true), (KEY_SPACE, true), (KEY_LEFTCTRL, false),
       (KEY_SPACE, false)]).1 30 (by decide) (by decide) (by decide) (by decide)
    (by decide)).1

/-- Claim C10 counterexample: in the Command-mode state reached by pressing
Space then Ctrl, both latches are held; handling a B press there changes
`command_mode` (the chord check fires before the macro dispatch), so the
internal state is not preserved. -/
theorem c10_macro_frame_counterexample :
    (process_keys usbkbd_init [(KEY_SPACE, true), (KEY_LEFTCTRL, true)]).1.command_mode = true ∧
    ¬ (process_key (process_keys usbkbd_init
        [(KEY_SPACE, true), (KEY_LEFTCTRL, true)]).1 KEY_B true).1.command_mode
      = (process_keys usbkbd_init
        [(KEY_SPACE, true), (KEY_LEFTCTRL, true)]).1.command_mode := by
  decide

/-- Claim C10 (amended): when a B press handled in Command mode does not
complete the chord, emitting the synthetic macro leaves the state machine's
internal state unchanged: `command_mode`, `ctrl_pressed`, `space_pressed`
and every `key_state` entry other than B's keep their values, because the
macro's events go straight to the Output Injector and are never fed back. -/
theorem c10_macro_frame_amended (s : UsbkbdCmd)
    (hm : s.command_mode = true)
    (hc : (s.ctrl_pressed && s.space_pressed) = false) :
    (process_key s KEY_B true).1.command_mode = s.command_mode ∧
    (process_key s KEY_B true).1.ctrl_pressed = s.ctrl_pressed ∧
    (process_key s KEY_B true).1.space_pressed = s.space_pressed ∧
    ∀ j, j ≠ KEY_B → (process_key s KEY_B true).1.key_state j = s.key_state j := by
  rw [process_key_in_range s KEY_B true (by decide)]
  have hm' : (latched s KEY_B true).command_mode = true := by
    rw [latched_command_mode]; exact hm
  have hc' : ((latched s KEY_B true).ctrl_pressed
      && (latched s KEY_B true).space_pressed) = false := by
    rw [latched_ctrl_pressed, latched_space_pressed]
    unfold ctrl_after space_after
    rw [if_neg (by decide), if_neg (by decide)]
    exact hc
  rw [dispatch_cmd_b _ hm' hc']
  refine ⟨latched_command_mode s KEY_B true, ?_, ?_, ?_⟩
  · rw [latched_ctrl_pressed]
    unfold ctrl_after
    rw [if_neg (by decide)]
  · rw [latched_space_pressed]
    unfold space_after
    rw [if_neg (by decide)]
  · intro j hj
    rw [latched_key_state, if_neg hj]

/-- Witness for the amended C10 at a concrete reachable Command state. -/
theorem c10_macro_frame_amended_witness :
    (process_key (process_keys usbkbd_init
      [(KEY_LEFTCTRL, true), (KEY_SPACE, true), (KEY_LEFTCTRL, false),
       (KEY_SPACE, false)]).1 KEY_B true).1.command_mode
      = (process_keys usbkbd_init
        [(KEY_LEFTCTRL, true), (KEY_SPACE, true), (KEY_LEFTCTRL, false),
         (KEY_SPACE, false)]).1.command_mode :=
  (c10_macro_frame_amended
    (process_keys usbkbd_init
      [(KEY_LEFTCTRL, true), (KEY_SPACE, true), (KEY_LEFTCTRL, false),
       (KEY_SPACE, false)]).1 (by decide) (by decide)).1

end UsbkbdCmdmode
